import Mathlib

/-!
# The per-request context factory of `src/index.js`

A shallow embedding of the `context` callback installed on the Apollo server in
`src/hackernews-code/src/index.js`, together with the fragment of JavaScript semantics
the callback relies on: property reads, truthiness, `indexOf` on strings and arrays,
object spread and `console.log`.

JavaScript values are the JSON-shaped values plus `undefined`.  Numbers are integers
(no floating point values, hence no `NaN`); strings are sequences of Unicode characters
rather than UTF-16 code units, which does not change whether an ASCII pattern occurs
in a string.  Function values are not represented.  An object is either a plain object,
given by its own enumerable properties, or an object with a prototype of its own, given by
its own enumerable properties and by the properties it only reads through its prototype
chain; the spread copies the former only.  The imported `getUserId` is a parameter, a function from the request to a value or
an exception.  Effects are explicit: the factory transforms a trace of events
(`console.log` lines and invocations of `getUserId`) and returns either a value or the
exception it threw.
-/

namespace HackerNews

/-! ## Values -/

/-- JavaScript values: JSON-shaped data, `undefined`, and objects with a prototype.  A plain
object `obj` (an object literal, a parsed JSON object) is the list of its own enumerable
properties in insertion order; reading a key takes the first entry carrying it.  An object
`withProto` has a prototype of its own (an instance of a class, such as the
`http.IncomingMessage` the server passes as `req`): besides its own enumerable properties it
has properties that it only reads through its prototype chain (inherited data properties
and accessors, such as `headers` on recent versions of Node). -/
inductive JSValue where
  | undefined : JSValue
  | null : JSValue
  | bool (b : Bool) : JSValue
  | num (n : Int) : JSValue
  | str (s : String) : JSValue
  | arr (elems : List JSValue) : JSValue
  | obj (props : List (String × JSValue)) : JSValue
  | withProto (own : List (String × JSValue)) (inherited : List (String × JSValue)) : JSValue

/-- Exceptions.  `typeError` is the `TypeError` the engine raises when a property of
`undefined` or `null` is read or a non-function is called; its argument names the
expression that failed (the engine's own message text is not modelled).  `thrown` is
any exception value raised by user code such as `getUserId`. -/
inductive JSError where
  | typeError (expr : String) : JSError
  | thrown (name : String) (message : String) : JSError

/-- The observable events of the factory, in the order they happen. -/
inductive Event where
  /-- One call of `console.log` with its argument list, that is one printed line. -/
  | log (args : List JSValue) : Event
  /-- One invocation of `getUserId` with its argument. -/
  | getUserIdCall (req : JSValue) : Event

/-- The trace of events so far, oldest first. -/
abbrev World := List Event

/-- The result of running the factory: what it returned or threw, and the trace after. -/
structure Outcome where
  result : Except JSError JSValue
  world : World

/-- The values the module closes over: the process-wide `prisma` and `pubsub` objects and
the imported function `getUserId` of `./utils`, whose source is not part of `index.js`. -/
structure Env where
  prisma : JSValue
  pubsub : JSValue
  getUserId : JSValue → Except JSError JSValue

/-! ## The fragment of JavaScript semantics used by the factory -/

/-- The first value stored under key `k`, if any. -/
def lookupProp (k : String) : List (String × JSValue) → Option JSValue
  | [] => none
  | (k', v) :: rest => if k' = k then some v else lookupProp k rest

/-- The property read `v.k` for the keys the factory reads (`req`, `body`, `query`,
`variables`, `headers`, `authorization`): a `TypeError` on `undefined` and `null`, the own
property or `undefined` on a plain object, the own property, else the inherited one, else
`undefined` on an object with a prototype, and `undefined` on the other values, none of
which carries one of these keys. -/
def getProp (v : JSValue) (k : String) : Except JSError JSValue :=
  match v with
  | .undefined => .error (.typeError k)
  | .null => .error (.typeError k)
  | .obj props => .ok ((lookupProp k props).getD .undefined)
  | .withProto own inherited =>
    match lookupProp k own with
    | some x => .ok x
    | none => .ok ((lookupProp k inherited).getD .undefined)
  | _ => .ok .undefined

/-- JavaScript truthiness (`ToBoolean`). -/
def truthy : JSValue → Bool
  | .undefined => false
  | .null => false
  | .bool b => b
  | .num n => n != 0
  | .str s => s != ""
  | .arr _ => true
  | .obj _ => true
  | .withProto _ _ => true

/-- The search of `String.prototype.indexOf`: the least position `k + i` at which `pat`
starts in the remaining text, or `-1`. -/
def indexOfFrom (pat : List Char) : List Char → Nat → Int
  | [], k => if pat.isPrefixOf [] then (k : Int) else -1
  | c :: cs, k => if pat.isPrefixOf (c :: cs) then (k : Int) else indexOfFrom pat cs (k + 1)

/-- The method `String.prototype.indexOf` applied to one argument. -/
def stringIndexOf (s pat : String) : Int :=
  indexOfFrom pat.toList s.toList 0

/-- Strict equality `v === s` against a string. -/
def strictEqStr (v : JSValue) (s : String) : Bool :=
  match v with
  | .str t => t == s
  | _ => false

/-- The search of `Array.prototype.indexOf` for a string: the least index whose element
is strictly equal to it, or `-1`. -/
def arrayIndexOfFrom (s : String) : List JSValue → Nat → Int
  | [], _ => -1
  | v :: vs, k => if strictEqStr v s then (k : Int) else arrayIndexOfFrom s vs (k + 1)

/-- The method call `v.indexOf(s)` with a string argument: the string method on a string,
the array method on an array, and a `TypeError` on every other value (`undefined` and
`null` have no properties, and no other represented value has a callable `indexOf`). -/
def callIndexOf (v : JSValue) (s : String) : Except JSError Int :=
  match v with
  | .str t => .ok (stringIndexOf t s)
  | .arr elems => .ok (arrayIndexOfFrom s elems 0)
  | _ => .error (.typeError "indexOf")

/-- The own enumerable string-keyed properties of a value, in enumeration order: the
properties of a plain object, the own properties of an object with a prototype (not the
inherited ones), the indexed elements of an array, the indexed characters of a string, and
nothing for the other values. -/
def ownProps : JSValue → List (String × JSValue)
  | .obj props => props
  | .withProto own _ => own
  | .arr elems => elems.enum.map (fun p => (toString p.1, p.2))
  | .str s => s.toList.enum.map (fun p => (toString p.1, JSValue.str (String.singleton p.2)))
  | _ => []

/-- The operation `CreateDataProperty` on a property list: the value under `k` is replaced
where it stands, or the entry is appended when `k` is new. -/
def setProp : List (String × JSValue) → String → JSValue → List (String × JSValue)
  | [], k, v => [(k, v)]
  | (k', v') :: rest, k, v =>
    if k' = k then (k, v) :: rest else (k', v') :: setProp rest k v

/-- The operation `CopyDataProperties` behind the spread `...src` in an object literal: every own
enumerable key of `src`, in order, is read from `src` and defined on the target. -/
def copyDataProperties (target : List (String × JSValue)) (src : JSValue) :
    List (String × JSValue) :=
  (ownProps src).foldl
    (fun t p => setProp t p.1 ((lookupProp p.1 (ownProps src)).getD .undefined)) target

/-- A call `console.log(...args)`: one more line on the trace. -/
def consoleLog (args : List JSValue) (w : World) : World :=
  w ++ [Event.log args]

/-! ## The factory -/

/-- The format string `'\x1b[36m%s\x1b[0m'` passed first to both `console.log` calls. -/
def cyanFormat : String := "\x1b[36m%s\x1b[0m"

/-- The expression `req.body.query`. -/
def reqBodyQuery (req : JSValue) : Except JSError JSValue :=
  match getProp req "body" with
  | .error e => .error e
  | .ok body => getProp body "query"

/-- The expression `req.body.variables`. -/
def reqBodyVariables (req : JSValue) : Except JSError JSValue :=
  match getProp req "body" with
  | .error e => .error e
  | .ok body => getProp body "variables"

/-- The expression `req.body.query.indexOf('IntrospectionQuery')`. -/
def introspectionIndex (req : JSValue) : Except JSError Int :=
  match reqBodyQuery req with
  | .error e => .error e
  | .ok query => callIndexOf query "IntrospectionQuery"

/-- The statement
`if (req.body.query.indexOf('IntrospectionQuery') < 0) { console.log(..); console.log(..); }`:
the exception it throws, if any, and the trace after it. -/
def logDiagnostics (req : JSValue) (w : World) : Option JSError × World :=
  match introspectionIndex req with
  | .error e => (some e, w)
  | .ok i =>
    if i < 0 then
      match reqBodyQuery req with
      | .error e => (some e, w)
      | .ok query =>
        let w1 := consoleLog [.str cyanFormat, .str "graphQL:query", query] w
        match reqBodyVariables req with
        | .error e => (some e, w1)
        | .ok vars =>
          (none, consoleLog [.str cyanFormat, .str "graphQL:variables", vars] w1)
    else (none, w)

/-- The expression `req && req.headers.authorization`: `req` itself when it is falsy, the
header value otherwise. -/
def authorizationOf (req : JSValue) : Except JSError JSValue :=
  if truthy req then
    match getProp req "headers" with
    | .error e => .error e
    | .ok headers => getProp headers "authorization"
  else .ok req

/-- The expression `req && req.headers.authorization ? getUserId(req) : null`. -/
def userIdOf (env : Env) (req : JSValue) (w : World) : Outcome :=
  match authorizationOf req with
  | .error e => ⟨.error e, w⟩
  | .ok auth =>
    if truthy auth then ⟨env.getUserId req, w ++ [Event.getUserIdCall req]⟩
    else ⟨.ok .null, w⟩

/-- The callback `context: ({ req }) => { ... }` applied to the argument object `arg` that
the server integration passes, starting from trace `w`. -/
def context (env : Env) (arg : JSValue) (w : World) : Outcome :=
  match getProp arg "req" with
  | .error e => ⟨.error e, w⟩
  | .ok req =>
    match logDiagnostics req w with
    | (some e, w1) => ⟨.error e, w1⟩
    | (none, w1) =>
      let spread := copyDataProperties [] req
      let withPrisma := setProp spread "prisma" env.prisma
      let withPubsub := setProp withPrisma "pubsub" env.pubsub
      let uid := userIdOf env req w1
      match uid.result with
      | .error e => ⟨.error e, uid.world⟩
      | .ok userId => ⟨.ok (.obj (setProp withPubsub "userId" userId)), uid.world⟩

/-! ## Vocabulary of the properties -/

/-- The text `q` contains `pat` as a substring. -/
def ContainsSubstring (q pat : String) : Prop :=
  ∃ pre post : String, q = pre ++ pat ++ post

/-- The event is a printed diagnostic line. -/
def Event.isLog : Event → Bool
  | .log _ => true
  | .getUserIdCall _ => false

/-- The first diagnostic line: the label `graphQL:query` and the query. -/
def queryLine (query : JSValue) : Event :=
  .log [.str cyanFormat, .str "graphQL:query", query]

/-- The second diagnostic line: the label `graphQL:variables` and the variables. -/
def variablesLine (vars : JSValue) : Event :=
  .log [.str cyanFormat, .str "graphQL:variables", vars]

/-- The properties of the object literal `{ ...req, prisma, pubsub, userId }` once the `userId`
expression has produced its value. -/
def contextProps (env : Env) (req userId : JSValue) : List (String × JSValue) :=
  setProp (setProp (setProp (copyDataProperties [] req) "prisma" env.prisma)
    "pubsub" env.pubsub) "userId" userId

/-! ## Sample inputs -/

/-- The query text `{ feed { id } }` of the end-to-end scenarios. -/
def feedQuery : String := "\x7b feed \x7b id \x7d \x7d"

/-- The request body of the end-to-end scenarios: the feed query with empty variables. -/
def feedBody : JSValue :=
  .obj [("query", .str feedQuery), ("variables", .obj [])]

/-- A request object with the given header entries and body. -/
def requestWith (headers : List (String × JSValue)) (body : JSValue) : JSValue :=
  .obj [("headers", .obj headers), ("body", body)]

/-- The argument object the HTTP integration passes to the factory. -/
def httpArg (req : JSValue) : JSValue :=
  .obj [("req", req), ("res", .obj [])]

/-- The argument object passed for a subscription connection: it has no `req`. -/
def connectionArg : JSValue :=
  .obj [("connection", .obj []), ("payload", .obj [])]

/-- A request with the header `Authorization: Bearer garbage` carrying the feed query. -/
def garbageRequest : JSValue :=
  requestWith [("authorization", .str "Bearer garbage")] feedBody

/-- A body whose query is an ordinary feed query that mentions `IntrospectionQuery` in a
comment. -/
def commentedBody : JSValue :=
  .obj [("query", .str "# not an IntrospectionQuery\n\x7b feed \x7b id \x7d \x7d"),
    ("variables", .obj [])]

/-- A request with the header `Authorization: Bearer tok123` that itself carries fields
named `userId` and `prisma`. -/
def spoofingRequest : JSValue :=
  .obj [("headers", .obj [("authorization", .str "Bearer tok123")]), ("body", feedBody),
    ("userId", .num 1), ("prisma", .str "fake")]

/-- A request shaped like an `http.IncomingMessage` on a recent Node: `body`, assigned by the
body parser, is an own property, while `headers` is an accessor inherited from the
prototype. -/
def inheritingRequest : JSValue :=
  .withProto [("body", feedBody)]
    [("headers", .obj [("authorization", .str "Bearer tok123")])]

/-- An environment whose `getUserId` succeeds on every request and returns `null`, as a
decoder does for a well-formed credential that embeds no caller identifier. -/
def nullDecodingEnv : Env :=
  ⟨.str "PrismaClient", .str "PubSub", fun _ => .ok .null⟩

/-- An environment whose `getUserId` decodes every request to caller `42`. -/
def decodingEnv : Env :=
  ⟨.str "PrismaClient", .str "PubSub", fun _ => .ok (.num 42)⟩

/-- An environment whose `getUserId` rejects every request. -/
def rejectingEnv : Env :=
  ⟨.str "PrismaClient", .str "PubSub",
    fun _ => .error (.thrown "InvalidCredential" "invalid token")⟩

/-! ## Substring search -/

theorem indexOfFrom_neg_iff (pat : List Char) :
    ∀ (s : List Char) (k : Nat), indexOfFrom pat s k < 0 ↔ ¬ pat <:+: s
  | [], k => by
    unfold indexOfFrom
    by_cases h : pat.isPrefixOf [] = true
    · have hp : pat <+: [] := List.isPrefixOf_iff_prefix.mp h
      simp [h, hp.isInfix]
    · have hp : ¬ pat <+: [] := fun hp => h (List.isPrefixOf_iff_prefix.mpr hp)
      have hi : ¬ pat <:+: [] := by
        intro hi
        apply hp
        have : pat = [] := List.infix_nil.mp hi
        simp [this]
      simp [h, hi]
  | c :: cs, k => by
    unfold indexOfFrom
    by_cases h : pat.isPrefixOf (c :: cs) = true
    · have hp : pat <+: c :: cs := List.isPrefixOf_iff_prefix.mp h
      simp only [h, if_true]
      constructor
      · intro hk; omega
      · intro hn; exact absurd hp.isInfix hn
    · have hp : ¬ pat <+: c :: cs := fun hp => h (List.isPrefixOf_iff_prefix.mpr hp)
      simp only [h]
      rw [if_neg (by simp), indexOfFrom_neg_iff pat cs (k + 1), List.infix_cons_iff]
      tauto

theorem containsSubstring_iff_toList (q pat : String) :
    ContainsSubstring q pat ↔ pat.toList <:+: q.toList := by
  constructor
  · rintro ⟨pre, post, rfl⟩
    exact ⟨pre.toList, post.toList, by simp [String.toList]⟩
  · rintro ⟨s, t, h⟩
    refine ⟨String.mk s, String.mk t, ?_⟩
    apply String.ext
    have h2 : q.data = s ++ pat.data ++ t := h.symm
    simp [h2]

theorem stringIndexOf_neg_iff (q pat : String) :
    stringIndexOf q pat < 0 ↔ ¬ ContainsSubstring q pat := by
  rw [containsSubstring_iff_toList]
  exact indexOfFrom_neg_iff _ _ _

/-! ## Property lists -/

theorem lookupProp_setProp (ps : List (String × JSValue)) (k k' : String) (v : JSValue) :
    lookupProp k' (setProp ps k v) = if k = k' then some v else lookupProp k' ps := by
  induction ps with
  | nil => simp [setProp, lookupProp]
  | cons p rest ih =>
    obtain ⟨k0, v0⟩ := p
    by_cases h : k0 = k
    · subst h
      by_cases h2 : k0 = k' <;> simp [setProp, lookupProp, h2]
    · by_cases h2 : k0 = k'
      · subst h2
        simp [setProp, lookupProp, h, Ne.symm h]
      · simp [setProp, lookupProp, h, h2, ih]

theorem lookupProp_eq_none_iff (k : String) (ps : List (String × JSValue)) :
    lookupProp k ps = none ↔ k ∉ ps.map Prod.fst := by
  induction ps with
  | nil => simp [lookupProp]
  | cons p rest ih =>
    obtain ⟨k0, v0⟩ := p
    by_cases h : k0 = k
    · simp [lookupProp, h]
    · simp [lookupProp, h, ih, Ne.symm h]

theorem lookupProp_foldl_setProp (src : List (String × JSValue)) (k : String) :
    ∀ (l t : List (String × JSValue)),
      lookupProp k
          (l.foldl (fun t p => setProp t p.1 ((lookupProp p.1 src).getD .undefined)) t) =
        if k ∈ l.map Prod.fst then some ((lookupProp k src).getD .undefined)
        else lookupProp k t
  | [], t => by simp
  | p :: l, t => by
    rw [List.foldl_cons, lookupProp_foldl_setProp src k l, lookupProp_setProp]
    by_cases h1 : k ∈ l.map Prod.fst
    · simp [h1]
    · by_cases h2 : p.1 = k
      · simp [h2]
      · simp only [h1, if_false, h2, List.map_cons, List.mem_cons, Ne.symm h2, false_or]

/-- The spread of a value into an empty literal keeps what every key reads as among the own
enumerable properties of the value. -/
theorem lookupProp_copyDataProperties (src : JSValue) (k : String) :
    lookupProp k (copyDataProperties [] src) = lookupProp k (ownProps src) := by
  unfold copyDataProperties
  rw [lookupProp_foldl_setProp]
  by_cases h : k ∈ (ownProps src).map Prod.fst
  · rw [if_pos h]
    cases hl : lookupProp k (ownProps src) with
    | none => exact absurd h ((lookupProp_eq_none_iff k _).mp hl)
    | some v => rfl
  · rw [if_neg h]
    exact ((lookupProp_eq_none_iff k _).mpr h).symm

/-! ## The shape of a run -/

/-- A value on which some property reads as something other than `undefined` is an object:
it is truthy and every property of it can be read. -/
theorem getProp_defined {v x : JSValue} {k : String} (h : getProp v k = .ok x)
    (hx : x ≠ .undefined) : truthy v = true ∧ ∀ k', ∃ y, getProp v k' = .ok y := by
  cases v with
  | undefined => simp [getProp] at h
  | null => simp [getProp] at h
  | bool b =>
    simp only [getProp] at h
    injection h with h
    exact absurd h.symm hx
  | num n =>
    simp only [getProp] at h
    injection h with h
    exact absurd h.symm hx
  | str s =>
    simp only [getProp] at h
    injection h with h
    exact absurd h.symm hx
  | arr elems =>
    simp only [getProp] at h
    injection h with h
    exact absurd h.symm hx
  | obj props => exact ⟨rfl, fun k' => ⟨_, rfl⟩⟩
  | withProto own inherited =>
    refine ⟨rfl, fun k' => ?_⟩
    simp only [getProp]
    cases lookupProp k' own with
    | some y => exact ⟨y, rfl⟩
    | none => exact ⟨_, rfl⟩

/-- A value with a callable `indexOf` is not `undefined`. -/
theorem ne_undefined_of_callIndexOf {v : JSValue} {s : String} {i : Int}
    (h : callIndexOf v s = .ok i) : v ≠ .undefined := by
  intro hv
  subst hv
  simp [callIndexOf] at h

/-- A truthy value is not `undefined`. -/
theorem ne_undefined_of_truthy {v : JSValue} (h : truthy v = true) : v ≠ .undefined := by
  intro hv
  subst hv
  simp [truthy] at h

/-- When the introspection check evaluates, the request and its `body` are objects and the
`query` is a string or an array. -/
theorem introspectionIndex_ok {req : JSValue} {i : Int}
    (h : introspectionIndex req = .ok i) :
    ∃ body query,
      getProp req "body" = .ok body ∧ getProp body "query" = .ok query ∧
        callIndexOf query "IntrospectionQuery" = .ok i ∧
        truthy req = true ∧ (∀ k', ∃ y, getProp req k' = .ok y) ∧
        ∀ k', ∃ y, getProp body k' = .ok y := by
  unfold introspectionIndex reqBodyQuery at h
  cases hb : getProp req "body" with
  | error e => simp [hb] at h
  | ok body =>
    simp only [hb] at h
    cases hq : getProp body "query" with
    | error e => simp [hq] at h
    | ok query =>
      simp only [hq] at h
      have hbody := getProp_defined hq (ne_undefined_of_callIndexOf h)
      have hreq := getProp_defined hb (ne_undefined_of_truthy hbody.1)
      exact ⟨body, query, rfl, hq, h, hreq.1, hreq.2, hbody.2⟩

/-- A request on which the introspection check evaluates is truthy. -/
theorem truthy_of_introspectionIndex_ok {req : JSValue} {i : Int}
    (h : introspectionIndex req = .ok i) : truthy req = true := by
  obtain ⟨_, _, _, _, _, ht, _⟩ := introspectionIndex_ok h
  exact ht

/-- The logging statement when the check evaluates: no exception, and the two lines are
printed exactly when the index is negative, whatever the trace before. -/
theorem logDiagnostics_ok {req : JSValue} {i : Int}
    (h : introspectionIndex req = .ok i) :
    ∃ query vars, reqBodyQuery req = .ok query ∧ reqBodyVariables req = .ok vars ∧
      callIndexOf query "IntrospectionQuery" = .ok i ∧
      ∀ w : World, logDiagnostics req w =
        (none, w ++ (if i < 0 then [queryLine query, variablesLine vars] else [])) := by
  obtain ⟨body, query, hb, hq, hi, _, _, hbody⟩ := introspectionIndex_ok h
  obtain ⟨vars, hv⟩ := hbody "variables"
  have hQ : reqBodyQuery req = .ok query := by
    simp only [reqBodyQuery, hb, hq]
  have hV : reqBodyVariables req = .ok vars := by
    simp only [reqBodyVariables, hb, hv]
  refine ⟨query, vars, hQ, hV, hi, ?_⟩
  intro w
  unfold logDiagnostics
  simp only [h, hQ, hV]
  by_cases hneg : i < 0
  · simp [hneg, consoleLog, queryLine, variablesLine]
  · simp [hneg]

/-- The logging statement when the check throws: the exception, and nothing printed. -/
theorem logDiagnostics_error {req : JSValue} {e : JSError} (w : World)
    (h : introspectionIndex req = .error e) : logDiagnostics req w = (some e, w) := by
  unfold logDiagnostics
  simp only [h]

/-- The factory on an argument whose `req` fails the introspection check. -/
theorem context_of_check_error {env : Env} {arg req : JSValue} {e : JSError} (w : World)
    (hreq : getProp arg "req" = .ok req) (h : introspectionIndex req = .error e) :
    context env arg w = ⟨.error e, w⟩ := by
  unfold context
  simp only [hreq, logDiagnostics_error w h]

/-- The factory on an argument whose `req` passes the introspection check, in terms of the
trace after logging and the outcome of the `userId` expression. -/
theorem context_of_check_ok {env : Env} {arg req : JSValue} {w w1 : World}
    (hreq : getProp arg "req" = .ok req) (hlog : logDiagnostics req w = (none, w1)) :
    context env arg w =
      match (userIdOf env req w1).result with
      | .error e => ⟨.error e, (userIdOf env req w1).world⟩
      | .ok userId =>
        ⟨.ok (.obj (contextProps env req userId)), (userIdOf env req w1).world⟩ := by
  unfold context contextProps
  simp only [hreq, hlog]

/-- The trace after the `userId` expression extends the trace before it by invocations of
`getUserId` only. -/
theorem userIdOf_world (env : Env) (req : JSValue) (w : World) :
    ∃ calls, (userIdOf env req w).world = w ++ calls ∧ ∀ e ∈ calls, Event.isLog e = false := by
  unfold userIdOf
  cases authorizationOf req with
  | error e => exact ⟨[], by simp⟩
  | ok auth =>
    by_cases h : truthy auth = true
    · exact ⟨[Event.getUserIdCall req], by simp [h, Event.isLog]⟩
    · exact ⟨[], by simp [h]⟩

/-- The `userId` expression on a truthy request, in terms of its authorization header. -/
theorem userIdOf_of_header {env : Env} {req headers auth : JSValue} (w : World)
    (hreq : truthy req = true) (hh : getProp req "headers" = .ok headers)
    (ha : getProp headers "authorization" = .ok auth) :
    userIdOf env req w =
      if truthy auth then ⟨env.getUserId req, w ++ [Event.getUserIdCall req]⟩
      else ⟨.ok .null, w⟩ := by
  unfold userIdOf authorizationOf
  simp only [hreq, if_true, hh, ha]

/-! ## The caller identifier -/

/-- Claim C1 as stated fails: a request whose headers carry no authorization value and whose
body carries no query makes the factory throw a `TypeError` instead of returning a context. -/
theorem context_no_authorization_counterexample :
    getProp (requestWith [] (.obj [])) "headers" = .ok (.obj []) ∧
      getProp (.obj []) "authorization" = .ok .undefined ∧
      context decodingEnv (httpArg (requestWith [] (.obj []))) [] =
        ⟨.error (.typeError "indexOf"), []⟩ :=
  ⟨rfl, rfl, rfl⟩

/-- Claim C1, amended: for every request on which the introspection check
`req.body.query.indexOf('IntrospectionQuery')` evaluates (the query is a string or an array)
and whose headers carry no authorization value (absent, `undefined` or the empty string),
the factory returns a context whose `userId` is `null`, raises no exception, and does not
invoke `getUserId`: the only events it adds to the trace are printed lines. -/
theorem context_no_authorization (env : Env) (arg req headers : JSValue) (w : World) (i : Int)
    (hreq : getProp arg "req" = .ok req)
    (hidx : introspectionIndex req = .ok i)
    (hh : getProp req "headers" = .ok headers)
    (hauth : getProp headers "authorization" = .ok .undefined ∨
      getProp headers "authorization" = .ok (.str "")) :
    ∃ props lines,
      context env arg w = ⟨.ok (.obj props), w ++ lines⟩ ∧
        lookupProp "userId" props = some .null ∧
        ∀ e ∈ lines, Event.isLog e = true := by
  obtain ⟨query, vars, _, _, _, hlog⟩ := logDiagnostics_ok hidx
  have htr := truthy_of_introspectionIndex_ok hidx
  refine ⟨contextProps env req .null,
    if i < 0 then [queryLine query, variablesLine vars] else [], ?_, ?_, ?_⟩
  · rw [context_of_check_ok hreq (hlog w)]
    rcases hauth with ha | ha
    · rw [userIdOf_of_header _ htr hh ha]
      rfl
    · rw [userIdOf_of_header _ htr hh ha]
      rfl
  · unfold contextProps
    rw [lookupProp_setProp]
    simp
  · intro e he
    by_cases hneg : i < 0
    · simp only [hneg, if_true, List.mem_cons, List.mem_singleton, List.not_mem_nil,
        or_false] at he
      rcases he with rfl | rfl <;> rfl
    · simp [hneg] at he

/-- A request without authorization header carrying the feed query: the factory returns a
context with `userId = null` and prints the two diagnostic lines. -/
theorem context_no_authorization_witness :
    getProp (httpArg (requestWith [] feedBody)) "req" = .ok (requestWith [] feedBody) ∧
      introspectionIndex (requestWith [] feedBody) = .ok (-1) ∧
      getProp (requestWith [] feedBody) "headers" = .ok (.obj []) ∧
      (getProp (.obj []) "authorization" = .ok .undefined ∨
        getProp (.obj []) "authorization" = .ok (.str "")) ∧
      ∃ props lines,
        context decodingEnv (httpArg (requestWith [] feedBody)) [] =
            ⟨.ok (.obj props), [] ++ lines⟩ ∧
          lookupProp "userId" props = some .null ∧
          ∀ e ∈ lines, Event.isLog e = true :=
  ⟨rfl, rfl, rfl, Or.inl rfl,
    context_no_authorization decodingEnv (httpArg (requestWith [] feedBody))
      (requestWith [] feedBody) (.obj []) [] (-1) rfl rfl rfl (Or.inl rfl)⟩

/-- A non-empty string is truthy. -/
theorem truthy_str {s : String} (hs : s ≠ "") : truthy (.str s) = true := by
  simp [truthy, hs]

/-- Claim C2 as stated fails: with the header `Bearer tok123`, which `getUserId` decodes to
`42`, and a body carrying no query, the factory throws a `TypeError` and returns no context. -/
theorem context_userId_counterexample :
    getProp (.obj [("authorization", .str "Bearer tok123")]) "authorization" =
        .ok (.str "Bearer tok123") ∧
      decodingEnv.getUserId
          (requestWith [("authorization", .str "Bearer tok123")] (.obj [])) = .ok (.num 42) ∧
      context decodingEnv
          (httpArg (requestWith [("authorization", .str "Bearer tok123")] (.obj []))) [] =
        ⟨.error (.typeError "indexOf"), []⟩ :=
  ⟨rfl, rfl, rfl⟩

/-- Claim C2, amended: for every request on which the introspection check evaluates (the query
is a string or an array), with a non-empty authorization header, for which `getUserId(req)`
returns a caller id `u`, the factory returns a context whose `userId` equals `u`. -/
theorem context_userId_of_getUserId (env : Env) (arg req headers u : JSValue) (s : String)
    (w : World) (i : Int)
    (hreq : getProp arg "req" = .ok req)
    (hidx : introspectionIndex req = .ok i)
    (hh : getProp req "headers" = .ok headers)
    (ha : getProp headers "authorization" = .ok (.str s))
    (hs : s ≠ "")
    (hu : env.getUserId req = .ok u) :
    ∃ props,
      (context env arg w).result = .ok (.obj props) ∧ lookupProp "userId" props = some u := by
  obtain ⟨query, vars, _, _, _, hlog⟩ := logDiagnostics_ok hidx
  have htr := truthy_of_introspectionIndex_ok hidx
  refine ⟨contextProps env req u, ?_, ?_⟩
  · rw [context_of_check_ok hreq (hlog w), userIdOf_of_header _ htr hh ha]
    simp only [truthy_str hs, if_true, hu]
  · unfold contextProps
    rw [lookupProp_setProp]
    simp

/-- The header `Bearer tok123` decoding to `42`, with the feed query, gives `userId = 42`. -/
theorem context_userId_of_getUserId_witness :
    getProp (httpArg (requestWith [("authorization", .str "Bearer tok123")] feedBody)) "req" =
        .ok (requestWith [("authorization", .str "Bearer tok123")] feedBody) ∧
      introspectionIndex (requestWith [("authorization", .str "Bearer tok123")] feedBody) =
        .ok (-1) ∧
      getProp (requestWith [("authorization", .str "Bearer tok123")] feedBody) "headers" =
        .ok (.obj [("authorization", .str "Bearer tok123")]) ∧
      getProp (.obj [("authorization", .str "Bearer tok123")]) "authorization" =
        .ok (.str "Bearer tok123") ∧
      "Bearer tok123" ≠ "" ∧
      decodingEnv.getUserId (requestWith [("authorization", .str "Bearer tok123")] feedBody) =
        .ok (.num 42) ∧
      ∃ props,
        (context decodingEnv
            (httpArg (requestWith [("authorization", .str "Bearer tok123")] feedBody)) []).result =
          .ok (.obj props) ∧ lookupProp "userId" props = some (.num 42) :=
  ⟨rfl, rfl, rfl, rfl, by decide, rfl,
    context_userId_of_getUserId decodingEnv _ _ _ (.num 42) "Bearer tok123" [] (-1)
      rfl rfl rfl rfl (by decide) rfl⟩

/-- Claim C3 as stated fails: with the header `Bearer garbage`, on which `getUserId` fails with
`InvalidCredential`, and a body carrying no query, the factory fails with a `TypeError`, not
with the error of `getUserId`. -/
theorem context_invalid_credential_counterexample :
    getProp (.obj [("authorization", .str "Bearer garbage")]) "authorization" =
        .ok (.str "Bearer garbage") ∧
      rejectingEnv.getUserId
          (requestWith [("authorization", .str "Bearer garbage")] (.obj [])) =
        .error (.thrown "InvalidCredential" "invalid token") ∧
      context rejectingEnv
          (httpArg (requestWith [("authorization", .str "Bearer garbage")] (.obj []))) [] =
        ⟨.error (.typeError "indexOf"), []⟩ :=
  ⟨rfl, rfl, rfl⟩

/-- Claim C3, amended: for every request on which the introspection check evaluates (the query
is a string or an array), with a non-empty authorization header, for which `getUserId(req)`
fails with an error, the factory fails with that same error and returns no context: the
error is not caught and there is no fallback to `userId = null`. -/
theorem context_propagates_getUserId_error (env : Env) (arg req headers : JSValue)
    (s : String) (e : JSError) (w : World) (i : Int)
    (hreq : getProp arg "req" = .ok req)
    (hidx : introspectionIndex req = .ok i)
    (hh : getProp req "headers" = .ok headers)
    (ha : getProp headers "authorization" = .ok (.str s))
    (hs : s ≠ "")
    (hu : env.getUserId req = .error e) :
    (context env arg w).result = .error e := by
  obtain ⟨query, vars, _, _, _, hlog⟩ := logDiagnostics_ok hidx
  have htr := truthy_of_introspectionIndex_ok hidx
  rw [context_of_check_ok hreq (hlog w), userIdOf_of_header _ htr hh ha]
  simp only [truthy_str hs, if_true, hu]

/-- The header `Bearer garbage` with the feed query: the factory fails with
`InvalidCredential`. -/
theorem context_propagates_getUserId_error_witness :
    getProp (httpArg (requestWith [("authorization", .str "Bearer garbage")] feedBody)) "req" =
        .ok (requestWith [("authorization", .str "Bearer garbage")] feedBody) ∧
      introspectionIndex (requestWith [("authorization", .str "Bearer garbage")] feedBody) =
        .ok (-1) ∧
      getProp (requestWith [("authorization", .str "Bearer garbage")] feedBody) "headers" =
        .ok (.obj [("authorization", .str "Bearer garbage")]) ∧
      getProp (.obj [("authorization", .str "Bearer garbage")]) "authorization" =
        .ok (.str "Bearer garbage") ∧
      "Bearer garbage" ≠ "" ∧
      rejectingEnv.getUserId (requestWith [("authorization", .str "Bearer garbage")] feedBody) =
        .error (.thrown "InvalidCredential" "invalid token") ∧
      (context rejectingEnv
          (httpArg (requestWith [("authorization", .str "Bearer garbage")] feedBody)) []).result =
        .error (.thrown "InvalidCredential" "invalid token") :=
  ⟨rfl, rfl, rfl, rfl, by decide, rfl,
    context_propagates_getUserId_error rejectingEnv _ _ _ "Bearer garbage" _ [] (-1)
      rfl rfl rfl rfl (by decide) rfl⟩

/-! ## The diagnostic lines -/

/-- The logging statement on a request whose query is a text: it prints the two lines when
the text does not contain `IntrospectionQuery`, and nothing when it does. -/
theorem logDiagnostics_of_text {req : JSValue} {q : String} (w : World)
    (hq : reqBodyQuery req = .ok (.str q)) :
    ∃ vars, reqBodyVariables req = .ok vars ∧
      (¬ ContainsSubstring q "IntrospectionQuery" →
        logDiagnostics req w = (none, w ++ [queryLine (.str q), variablesLine vars])) ∧
      (ContainsSubstring q "IntrospectionQuery" → logDiagnostics req w = (none, w)) := by
  have hidx : introspectionIndex req = .ok (stringIndexOf q "IntrospectionQuery") := by
    simp only [introspectionIndex, hq, callIndexOf]
  obtain ⟨query, vars, hq2, hv, _, hlog⟩ := logDiagnostics_ok hidx
  have hquery : query = .str q := by
    rw [hq] at hq2
    injection hq2 with h
    exact h.symm
  subst hquery
  refine ⟨vars, hv, ?_, ?_⟩
  · intro hn
    rw [hlog w, if_pos ((stringIndexOf_neg_iff q _).mpr hn)]
  · intro hc
    have : ¬ stringIndexOf q "IntrospectionQuery" < 0 := fun h =>
      (stringIndexOf_neg_iff q _).mp h hc
    rw [hlog w, if_neg this, List.append_nil]

/-- The trace after a run that passes the check is the trace after the `userId`
expression. -/
theorem context_world_of_check_ok {env : Env} {arg req : JSValue} {w w1 : World}
    (hreq : getProp arg "req" = .ok req) (hlog : logDiagnostics req w = (none, w1)) :
    (context env arg w).world = (userIdOf env req w1).world := by
  rw [context_of_check_ok hreq hlog]
  cases (userIdOf env req w1).result <;> rfl

/-- Claim C4 as stated fails: with the header `Bearer garbage`, rejected by `getUserId`, and
the feed query, the factory prints both diagnostic lines and invokes `getUserId` before it
fails with `InvalidCredential`. -/
theorem context_logs_before_failing_counterexample :
    context rejectingEnv (httpArg garbageRequest) [] =
      ⟨.error (.thrown "InvalidCredential" "invalid token"),
        [queryLine (.str feedQuery), variablesLine (.obj []),
          Event.getUserIdCall garbageRequest]⟩ :=
  rfl

/-- Claim C4, amended: for every request whose authorization header is present but makes
`getUserId` fail, with any query text, the factory emits its diagnostic lines before it
invokes `getUserId` and fails: the two lines when the text does not contain
`IntrospectionQuery`, none when it does. -/
theorem context_logs_before_failing (env : Env) (arg req headers : JSValue) (q s : String)
    (e : JSError) (w : World)
    (hreq : getProp arg "req" = .ok req)
    (hq : reqBodyQuery req = .ok (.str q))
    (hh : getProp req "headers" = .ok headers)
    (ha : getProp headers "authorization" = .ok (.str s))
    (hs : s ≠ "")
    (hu : env.getUserId req = .error e) :
    ∃ vars, reqBodyVariables req = .ok vars ∧
      (¬ ContainsSubstring q "IntrospectionQuery" →
        context env arg w =
          ⟨.error e,
            w ++ [queryLine (.str q), variablesLine vars, Event.getUserIdCall req]⟩) ∧
      (ContainsSubstring q "IntrospectionQuery" →
        context env arg w = ⟨.error e, w ++ [Event.getUserIdCall req]⟩) := by
  obtain ⟨vars, hv, hno, hyes⟩ := logDiagnostics_of_text w hq
  have htr : truthy req = true :=
    truthy_of_introspectionIndex_ok
      (show introspectionIndex req = .ok (stringIndexOf q "IntrospectionQuery") by
        simp only [introspectionIndex, hq, callIndexOf])
  refine ⟨vars, hv, ?_, ?_⟩
  · intro hn
    rw [context_of_check_ok hreq (hno hn), userIdOf_of_header _ htr hh ha]
    simp [truthy_str hs, hu]
  · intro hc
    rw [context_of_check_ok hreq (hyes hc), userIdOf_of_header _ htr hh ha]
    simp [truthy_str hs, hu]

/-- The header `Bearer garbage` with the feed query: two lines, then the call, then the
failure. -/
theorem context_logs_before_failing_witness :
    getProp (httpArg garbageRequest) "req" = .ok garbageRequest ∧
      reqBodyQuery garbageRequest = .ok (.str feedQuery) ∧
      getProp garbageRequest "headers" = .ok (.obj [("authorization", .str "Bearer garbage")]) ∧
      getProp (.obj [("authorization", .str "Bearer garbage")]) "authorization" =
        .ok (.str "Bearer garbage") ∧
      "Bearer garbage" ≠ "" ∧
      rejectingEnv.getUserId garbageRequest =
        .error (.thrown "InvalidCredential" "invalid token") ∧
      ∃ vars, reqBodyVariables garbageRequest = .ok vars ∧
        (¬ ContainsSubstring feedQuery "IntrospectionQuery" →
          context rejectingEnv (httpArg garbageRequest) [] =
            ⟨.error (.thrown "InvalidCredential" "invalid token"),
              [] ++ [queryLine (.str feedQuery), variablesLine vars,
                Event.getUserIdCall garbageRequest]⟩) ∧
        (ContainsSubstring feedQuery "IntrospectionQuery" →
          context rejectingEnv (httpArg garbageRequest) [] =
            ⟨.error (.thrown "InvalidCredential" "invalid token"),
              [] ++ [Event.getUserIdCall garbageRequest]⟩) :=
  ⟨rfl, rfl, rfl, rfl, by decide, rfl,
    context_logs_before_failing rejectingEnv _ _ _ feedQuery "Bearer garbage" _ []
      rfl rfl rfl rfl (by decide) rfl⟩

/-- Claim C5: for every request whose body query text does not contain the substring
`IntrospectionQuery`, the factory emits exactly two diagnostic lines, in order: the first
carries the label `graphQL:query` and `req.body.query`, the second the label
`graphQL:variables` and `req.body.variables`; whatever else the run adds to the trace is
not a printed line. -/
theorem context_logs_two_lines (env : Env) (arg req : JSValue) (q : String) (w : World)
    (hreq : getProp arg "req" = .ok req)
    (hq : reqBodyQuery req = .ok (.str q))
    (hn : ¬ ContainsSubstring q "IntrospectionQuery") :
    ∃ vars rest, reqBodyVariables req = .ok vars ∧
      (context env arg w).world = w ++ [queryLine (.str q), variablesLine vars] ++ rest ∧
      ∀ e ∈ rest, Event.isLog e = false := by
  obtain ⟨vars, hv, hno, _⟩ := logDiagnostics_of_text w hq
  obtain ⟨calls, hw, hcalls⟩ :=
    userIdOf_world env req (w ++ [queryLine (.str q), variablesLine vars])
  exact ⟨vars, calls, hv, by rw [context_world_of_check_ok hreq (hno hn), hw], hcalls⟩

/-- The feed query with the header `Bearer tok123`: the two lines carry the query text and
the empty variables object. -/
theorem context_logs_two_lines_witness :
    getProp (httpArg (requestWith [("authorization", .str "Bearer tok123")] feedBody)) "req" =
        .ok (requestWith [("authorization", .str "Bearer tok123")] feedBody) ∧
      reqBodyQuery (requestWith [("authorization", .str "Bearer tok123")] feedBody) =
        .ok (.str feedQuery) ∧
      ¬ ContainsSubstring feedQuery "IntrospectionQuery" ∧
      ∃ vars rest,
        reqBodyVariables (requestWith [("authorization", .str "Bearer tok123")] feedBody) =
          .ok vars ∧
        (context decodingEnv
            (httpArg (requestWith [("authorization", .str "Bearer tok123")] feedBody)) []).world =
          [] ++ [queryLine (.str feedQuery), variablesLine vars] ++ rest ∧
        ∀ e ∈ rest, Event.isLog e = false :=
  ⟨rfl, rfl, (stringIndexOf_neg_iff _ _).mp (by decide),
    context_logs_two_lines decodingEnv _ _ feedQuery [] rfl rfl
      ((stringIndexOf_neg_iff _ _).mp (by decide))⟩

/-- Claim C6: for every request whose body query text contains the substring
`IntrospectionQuery` anywhere, the factory emits no diagnostic line: whatever the run adds
to the trace is not a printed line. -/
theorem context_logs_nothing_on_introspection (env : Env) (arg req : JSValue) (q : String)
    (w : World)
    (hreq : getProp arg "req" = .ok req)
    (hq : reqBodyQuery req = .ok (.str q))
    (hc : ContainsSubstring q "IntrospectionQuery") :
    ∃ rest, (context env arg w).world = w ++ rest ∧ ∀ e ∈ rest, Event.isLog e = false := by
  obtain ⟨vars, _, _, hyes⟩ := logDiagnostics_of_text w hq
  obtain ⟨calls, hw, hcalls⟩ := userIdOf_world env req w
  exact ⟨calls, by rw [context_world_of_check_ok hreq (hyes hc), hw], hcalls⟩

/-- A feed query that mentions `IntrospectionQuery` in a comment is not logged. -/
theorem context_logs_nothing_on_introspection_witness :
    getProp (httpArg (requestWith [] commentedBody)) "req" =
        .ok (requestWith [] commentedBody) ∧
      reqBodyQuery (requestWith [] commentedBody) =
        .ok (.str "# not an IntrospectionQuery\n\x7b feed \x7b id \x7d \x7d") ∧
      ContainsSubstring "# not an IntrospectionQuery\n\x7b feed \x7b id \x7d \x7d"
        "IntrospectionQuery" ∧
      ∃ rest,
        (context decodingEnv (httpArg (requestWith [] commentedBody)) []).world = [] ++ rest ∧
          ∀ e ∈ rest, Event.isLog e = false :=
  ⟨rfl, rfl, ⟨"# not an ", "\n\x7b feed \x7b id \x7d \x7d", by decide⟩,
    context_logs_nothing_on_introspection decodingEnv _ _ _ [] rfl rfl
      ⟨"# not an ", "\n\x7b feed \x7b id \x7d \x7d", by decide⟩⟩

/-! ## The returned context -/

/-- The value of the `userId` expression in terms of the tested header value. -/
theorem userIdOf_result (env : Env) (req : JSValue) (w : World) :
    (userIdOf env req w).result =
      match authorizationOf req with
      | .error e => .error e
      | .ok auth => if truthy auth then env.getUserId req else .ok .null := by
  unfold userIdOf
  cases authorizationOf req with
  | error e => rfl
  | ok auth => by_cases h : truthy auth = true <;> simp [h]

/-- A successful run passed the check on a truthy request, and its context is the object
literal built around the value of the `userId` expression. -/
theorem context_result_ok {env : Env} {arg req ctx : JSValue} {w : World}
    (hreq : getProp arg "req" = .ok req) (hok : (context env arg w).result = .ok ctx) :
    ∃ auth userId,
      truthy req = true ∧ authorizationOf req = .ok auth ∧
        (if truthy auth then env.getUserId req = .ok userId else userId = .null) ∧
        ctx = .obj (contextProps env req userId) := by
  cases hidx : introspectionIndex req with
  | error e =>
    rw [context_of_check_error w hreq hidx] at hok
    simp at hok
  | ok i =>
    have htr := truthy_of_introspectionIndex_ok hidx
    obtain ⟨query, vars, _, _, _, hlog⟩ := logDiagnostics_ok hidx
    rw [context_of_check_ok hreq (hlog w)] at hok
    have hres := userIdOf_result env req
      (w ++ (if i < 0 then [queryLine query, variablesLine vars] else []))
    cases hu : (userIdOf env req
        (w ++ (if i < 0 then [queryLine query, variablesLine vars] else []))).result with
    | error e => simp [hu] at hok
    | ok userId =>
      simp only [hu] at hok
      rw [hu] at hres
      cases ha : authorizationOf req with
      | error e => simp [ha] at hres
      | ok auth =>
        simp only [ha] at hres
        refine ⟨auth, userId, htr, rfl, ?_, ?_⟩
        · by_cases ht : truthy auth = true
          · simp only [ht, if_true] at hres ⊢
            exact hres.symm
          · simp only [ht] at hres ⊢
            simp only [Bool.false_eq_true, if_false] at hres ⊢
            injection hres with h
        · injection hok with h
          exact h.symm

/-- The header value tested by a run on a truthy request is `req.headers.authorization`. -/
theorem authorizationOf_ok {req auth : JSValue} (htr : truthy req = true)
    (ha : authorizationOf req = .ok auth) :
    ∃ headers, getProp req "headers" = .ok headers ∧
      getProp headers "authorization" = .ok auth := by
  unfold authorizationOf at ha
  simp only [htr, if_true] at ha
  cases hh : getProp req "headers" with
  | error e => simp [hh] at ha
  | ok headers => exact ⟨headers, rfl, by simpa [hh] using ha⟩

/-- Claim C7 as stated fails: a request that reads `headers` through its prototype, as an
`http.IncomingMessage` does, yields a context without `headers`: the spread copies the own
enumerable property `body` only. -/
theorem context_fields_counterexample :
    getProp inheritingRequest "headers" =
        .ok (.obj [("authorization", .str "Bearer tok123")]) ∧
      (context decodingEnv (httpArg inheritingRequest) []).result =
        .ok (.obj [("body", feedBody), ("prisma", .str "PrismaClient"),
          ("pubsub", .str "PubSub"), ("userId", .num 42)]) ∧
      getProp (.obj [("body", feedBody), ("prisma", .str "PrismaClient"),
          ("pubsub", .str "PubSub"), ("userId", .num 42)]) "headers" = .ok .undefined :=
  ⟨rfl, rfl, rfl⟩

/-- Claim C7, amended: for every request on which the factory succeeds, the returned context
is a plain object that contains every own enumerable field of the request with its value
unchanged and no field that the request only inherits, except that `prisma` and `pubsub`
hold the process-wide handles and `userId` holds the computed caller id (the result of
`getUserId(req)` when the tested header value is truthy, `null` otherwise), overriding any
request field of the same name. -/
theorem context_fields (env : Env) (arg req ctx : JSValue) (w : World)
    (hreq : getProp arg "req" = .ok req)
    (hok : (context env arg w).result = .ok ctx) :
    ∃ cprops auth userId,
      ctx = .obj cprops ∧
        lookupProp "prisma" cprops = some env.prisma ∧
        lookupProp "pubsub" cprops = some env.pubsub ∧
        lookupProp "userId" cprops = some userId ∧
        authorizationOf req = .ok auth ∧
        (if truthy auth then env.getUserId req = .ok userId else userId = .null) ∧
        ∀ k, k ≠ "prisma" → k ≠ "pubsub" → k ≠ "userId" →
          lookupProp k cprops = lookupProp k (ownProps req) := by
  obtain ⟨auth, userId, _, ha, hu, hctx⟩ := context_result_ok hreq hok
  refine ⟨contextProps env req userId, auth, userId, hctx, ?_, ?_, ?_, ha, hu, ?_⟩
  · simp [contextProps, lookupProp_setProp]
  · simp [contextProps, lookupProp_setProp]
  · simp [contextProps, lookupProp_setProp]
  · intro k h1 h2 h3
    simp [contextProps, lookupProp_setProp, Ne.symm h1, Ne.symm h2, Ne.symm h3,
      lookupProp_copyDataProperties]

/-- A request that carries its own `userId` and `prisma`: the context keeps the own fields
`headers` and `body` and overrides the two. -/
theorem context_fields_witness :
    getProp (httpArg spoofingRequest) "req" = .ok spoofingRequest ∧
      (context decodingEnv (httpArg spoofingRequest) []).result =
        .ok (.obj [("headers", .obj [("authorization", .str "Bearer tok123")]),
          ("body", feedBody), ("userId", .num 42), ("prisma", .str "PrismaClient"),
          ("pubsub", .str "PubSub")]) ∧
      ∃ cprops auth userId,
        JSValue.obj [("headers", .obj [("authorization", .str "Bearer tok123")]),
            ("body", feedBody), ("userId", .num 42), ("prisma", .str "PrismaClient"),
            ("pubsub", .str "PubSub")] = .obj cprops ∧
          lookupProp "prisma" cprops = some decodingEnv.prisma ∧
          lookupProp "pubsub" cprops = some decodingEnv.pubsub ∧
          lookupProp "userId" cprops = some userId ∧
          authorizationOf spoofingRequest = .ok auth ∧
          (if truthy auth then decodingEnv.getUserId spoofingRequest = .ok userId
            else userId = .null) ∧
          ∀ k, k ≠ "prisma" → k ≠ "pubsub" → k ≠ "userId" →
            lookupProp k cprops = lookupProp k (ownProps spoofingRequest) :=
  ⟨rfl, rfl, context_fields decodingEnv (httpArg spoofingRequest) spoofingRequest _ [] rfl rfl⟩

/-- Claim C8 as stated fails: with the non-empty header `Bearer tok123` and a `getUserId`
that succeeds and returns `null`, the factory succeeds and the returned `userId` is
`null`. -/
theorem userId_nonnull_iff_counterexample :
    getProp (requestWith [("authorization", .str "Bearer tok123")] feedBody) "headers" =
        .ok (.obj [("authorization", .str "Bearer tok123")]) ∧
      getProp (.obj [("authorization", .str "Bearer tok123")]) "authorization" =
        .ok (.str "Bearer tok123") ∧
      truthy (.str "Bearer tok123") = true ∧
      nullDecodingEnv.getUserId
          (requestWith [("authorization", .str "Bearer tok123")] feedBody) = .ok .null ∧
      (context nullDecodingEnv
          (httpArg (requestWith [("authorization", .str "Bearer tok123")] feedBody)) []).result =
        .ok (.obj [("headers", .obj [("authorization", .str "Bearer tok123")]),
          ("body", feedBody), ("prisma", .str "PrismaClient"), ("pubsub", .str "PubSub"),
          ("userId", .null)]) :=
  ⟨rfl, rfl, rfl, rfl, rfl⟩

/-- Claim C8, amended: for every request on which the factory succeeds, the returned `userId`
is non-null if and only if the request has a non-empty (truthy) authorization header and
`getUserId` succeeded on the request with a value that is not `null`. -/
theorem userId_nonnull_iff (env : Env) (arg req ctx : JSValue) (w : World)
    (hreq : getProp arg "req" = .ok req)
    (hok : (context env arg w).result = .ok ctx) :
    ∃ props userId,
      ctx = .obj props ∧ lookupProp "userId" props = some userId ∧
        (userId ≠ .null ↔
          ∃ headers auth u, getProp req "headers" = .ok headers ∧
            getProp headers "authorization" = .ok auth ∧ truthy auth = true ∧
            env.getUserId req = .ok u ∧ u ≠ .null) := by
  obtain ⟨auth, userId, htr, ha, hu, hctx⟩ := context_result_ok hreq hok
  refine ⟨contextProps env req userId, userId, hctx, ?_, ?_⟩
  · simp [contextProps, lookupProp_setProp]
  · obtain ⟨headers, hh, hha⟩ := authorizationOf_ok htr ha
    by_cases ht : truthy auth = true
    · simp only [ht, if_true] at hu
      constructor
      · intro hne
        exact ⟨headers, auth, userId, hh, hha, ht, hu, hne⟩
      · rintro ⟨_, _, u, _, _, _, hu2, hne⟩
        rw [hu] at hu2
        injection hu2 with h
        rw [h]
        exact hne
    · simp only [ht] at hu
      simp only [Bool.false_eq_true, if_false] at hu
      constructor
      · intro hne
        exact absurd hu hne
      · rintro ⟨headers2, auth2, u, hh2, hha2, ht2, _, _⟩
        rw [hh] at hh2
        injection hh2 with h
        subst h
        rw [hha] at hha2
        injection hha2 with h
        subst h
        exact absurd ht2 ht

/-- The header `Bearer tok123` decoding to `42`: `userId` is `42`, which is not `null`. -/
theorem userId_nonnull_iff_witness :
    getProp (httpArg spoofingRequest) "req" = .ok spoofingRequest ∧
      (context decodingEnv (httpArg spoofingRequest) []).result =
        .ok (.obj [("headers", .obj [("authorization", .str "Bearer tok123")]),
          ("body", feedBody), ("userId", .num 42), ("prisma", .str "PrismaClient"),
          ("pubsub", .str "PubSub")]) ∧
      ∃ props userId,
        JSValue.obj [("headers", .obj [("authorization", .str "Bearer tok123")]),
            ("body", feedBody), ("userId", .num 42), ("prisma", .str "PrismaClient"),
            ("pubsub", .str "PubSub")] = .obj props ∧
          lookupProp "userId" props = some userId ∧
          (userId ≠ .null ↔
            ∃ headers auth u, getProp spoofingRequest "headers" = .ok headers ∧
              getProp headers "authorization" = .ok auth ∧ truthy auth = true ∧
              decodingEnv.getUserId spoofingRequest = .ok u ∧ u ≠ .null) :=
  ⟨rfl, rfl,
    userId_nonnull_iff decodingEnv (httpArg spoofingRequest) spoofingRequest _ [] rfl rfl⟩

/-! ## Repeated and degenerate invocations -/

/-- The `userId` expression has one result and adds one list of events, whatever the trace
it starts from. -/
theorem userIdOf_uniform (env : Env) (req : JSValue) :
    ∃ r calls, ∀ w : World, userIdOf env req w = ⟨r, w ++ calls⟩ := by
  unfold userIdOf
  cases authorizationOf req with
  | error e => exact ⟨.error e, [], fun w => by simp⟩
  | ok auth =>
    by_cases h : truthy auth = true
    · exact ⟨env.getUserId req, [Event.getUserIdCall req], fun w => by simp [h]⟩
    · exact ⟨.ok .null, [], fun w => by simp [h]⟩

/-- The factory has one result and adds one list of events, whatever the trace it starts
from. -/
theorem context_uniform (env : Env) (arg : JSValue) :
    ∃ r events, ∀ w : World, context env arg w = ⟨r, w ++ events⟩ := by
  cases hreq : getProp arg "req" with
  | error e =>
    refine ⟨.error e, [], fun w => ?_⟩
    unfold context
    simp [hreq]
  | ok req =>
    cases hidx : introspectionIndex req with
    | error e =>
      exact ⟨.error e, [], fun w => by rw [context_of_check_error w hreq hidx]; simp⟩
    | ok i =>
      obtain ⟨query, vars, _, _, _, hlog⟩ := logDiagnostics_ok hidx
      obtain ⟨r, calls, hu⟩ := userIdOf_uniform env req
      cases r with
      | error e =>
        refine ⟨.error e,
          (if i < 0 then [queryLine query, variablesLine vars] else []) ++ calls, fun w => ?_⟩
        rw [context_of_check_ok hreq (hlog w), hu]
        simp
      | ok userId =>
        refine ⟨.ok (.obj (contextProps env req userId)),
          (if i < 0 then [queryLine query, variablesLine vars] else []) ++ calls, fun w => ?_⟩
        rw [context_of_check_ok hreq (hlog w), hu]
        simp

/-- Claim C9: calling the factory twice on the same argument, with the same `prisma` and
`pubsub` handles and the same `getUserId`, the second call starting from the trace the first
one left, yields the same result (the same context, equal in every field, or the same
exception) and adds the same sequence of events, diagnostic lines included. -/
theorem context_idempotent (env : Env) (arg : JSValue) (w : World) :
    (context env arg (context env arg w).world).result = (context env arg w).result ∧
      ∃ events, (context env arg w).world = w ++ events ∧
        (context env arg (context env arg w).world).world =
          (context env arg w).world ++ events := by
  obtain ⟨r, events, h⟩ := context_uniform env arg
  refine ⟨by rw [h w, h (w ++ events)], events, by rw [h w], ?_⟩
  rw [h w, h (w ++ events)]

/-- Claim C10: the `req &&` guard of the `userId` expression never decides the outcome.  On
every invocation in which `req` is falsy (`undefined` and `null` included), or `req.body` or
`req.body.query` is missing, the factory fails at the introspection check: it throws the
`TypeError` of `req.body.query.indexOf(..)` with nothing printed and `getUserId` not invoked,
instead of reaching the guard and returning a context with `userId = null`. -/
theorem request_guard_never_decides (env : Env) (arg req : JSValue) (w : World)
    (hreq : getProp arg "req" = .ok req)
    (hbad : truthy req = false ∨ getProp req "body" = .ok .undefined ∨
      reqBodyQuery req = .ok .undefined) :
    ∃ expr, introspectionIndex req = .error (.typeError expr) ∧
      context env arg w = ⟨.error (.typeError expr), w⟩ := by
  have key : ∃ expr, introspectionIndex req = .error (.typeError expr) := by
    rcases hbad with h | h | h
    · cases req with
      | undefined => exact ⟨"body", rfl⟩
      | null => exact ⟨"body", rfl⟩
      | bool b => exact ⟨"query", rfl⟩
      | num n => exact ⟨"query", rfl⟩
      | str s => exact ⟨"query", rfl⟩
      | arr elems => simp [truthy] at h
      | obj props => simp [truthy] at h
      | withProto own inherited => simp [truthy] at h
    · refine ⟨"query", ?_⟩
      simp only [introspectionIndex, reqBodyQuery, h]
      rfl
    · refine ⟨"indexOf", ?_⟩
      simp only [introspectionIndex, h]
      rfl
  obtain ⟨expr, hexpr⟩ := key
  exact ⟨expr, hexpr, context_of_check_error w hreq hexpr⟩

/-- A subscription connection, whose argument has no `req`: the factory throws at
`req.body`. -/
theorem request_guard_never_decides_witness :
    getProp connectionArg "req" = .ok .undefined ∧
      (truthy .undefined = false ∨ getProp .undefined "body" = .ok .undefined ∨
        reqBodyQuery .undefined = .ok .undefined) ∧
      ∃ expr, introspectionIndex .undefined = .error (.typeError expr) ∧
        context decodingEnv connectionArg [] = ⟨.error (.typeError expr), []⟩ :=
  ⟨rfl, Or.inl rfl,
    request_guard_never_decides decodingEnv connectionArg .undefined [] rfl (Or.inl rfl)⟩

end HackerNews
